import Mathlib

/-!
Verification of the Black-Scholes option pricing engine (`BlackScholes` class
in `app.py`).  The five inputs and every output are real numbers here; the
Python code computes with IEEE doubles via numpy/scipy, and `scipy.stats.norm`
provides the standard normal pdf/cdf, embedded below as `normPdf`/`normCdf`.
-/

open MeasureTheory Set

/-- Standard normal density, the embedding of `scipy.stats.norm.pdf`. -/
noncomputable def normPdf (x : ℝ) : ℝ :=
  (Real.sqrt (2 * Real.pi))⁻¹ * Real.exp (-(x ^ 2) / 2)

/-- Standard normal cumulative distribution function, the embedding of
`scipy.stats.norm.cdf`. -/
noncomputable def normCdf (x : ℝ) : ℝ := ∫ t in Set.Iio x, normPdf t

/-- State stored by `BlackScholes.__init__` in `app.py`: the five parameters,
assigned to attributes in this order, with no validation of any kind. -/
structure BlackScholes where
  time_to_maturity : ℝ
  strike : ℝ
  current_price : ℝ
  volatility : ℝ
  interest_rate : ℝ

namespace BlackScholes

/-- Embedding of `BlackScholes.__init__(self, time_to_maturity, strike,
current_price, volatility, interest_rate)`: it only stores the five
parameters; there is no validation and no error path. -/
def init (time_to_maturity strike current_price volatility interest_rate : ℝ) :
    BlackScholes :=
  ⟨time_to_maturity, strike, current_price, volatility, interest_rate⟩

/-- Embedding of `BlackScholes.calculate_d1_d2`. -/
noncomputable def calculate_d1_d2 (self : BlackScholes) : ℝ × ℝ :=
  let d1 := (Real.log (self.current_price / self.strike) +
      (self.interest_rate + 0.5 * self.volatility ^ 2) * self.time_to_maturity) /
    (self.volatility * Real.sqrt self.time_to_maturity)
  let d2 := d1 - self.volatility * Real.sqrt self.time_to_maturity
  (d1, d2)

/-- Embedding of `BlackScholes.calculate_prices`. -/
noncomputable def calculate_prices (self : BlackScholes) : ℝ × ℝ :=
  let d := self.calculate_d1_d2
  let d1 := d.1
  let d2 := d.2
  let call_price := self.current_price * normCdf d1 -
    self.strike * Real.exp (-self.interest_rate * self.time_to_maturity) * normCdf d2
  let put_price := self.strike * Real.exp (-self.interest_rate * self.time_to_maturity) *
      normCdf (-d2) - self.current_price * normCdf (-d1)
  (call_price, put_price)

/-- Embedding of `BlackScholes.calculate_greeks`; the result tuple is in the
source's return order `(c_delta, p_delta, gamma, c_theta, p_theta, vega,
c_rho, p_rho)`. -/
noncomputable def calculate_greeks (self : BlackScholes) :
    ℝ × ℝ × ℝ × ℝ × ℝ × ℝ × ℝ × ℝ :=
  let d := self.calculate_d1_d2
  let d1 := d.1
  let d2 := d.2
  let c_delta := normCdf d1
  let c_theta := -(self.current_price * self.volatility * normPdf d1) /
      (2 * Real.sqrt self.time_to_maturity) -
    self.interest_rate * self.strike *
      Real.exp (-self.interest_rate * self.time_to_maturity) * normCdf d2
  let c_rho := self.strike * self.time_to_maturity *
    Real.exp (-self.interest_rate * self.time_to_maturity) * normCdf d2
  let p_delta := normCdf d1 - 1
  let p_theta := -(self.current_price * self.volatility * normPdf d1) /
      (2 * Real.sqrt self.time_to_maturity) +
    self.interest_rate * self.strike *
      Real.exp (-self.interest_rate * self.time_to_maturity) * normCdf (-d2)
  let p_rho := -self.strike * self.time_to_maturity *
    Real.exp (-self.interest_rate * self.time_to_maturity) * normCdf (-d2)
  let gamma := normPdf d1 /
    (self.current_price * self.volatility * Real.sqrt self.time_to_maturity)
  let vega := self.current_price * Real.sqrt self.time_to_maturity * normPdf d1 / 100
  (c_delta, p_delta, gamma, c_theta, p_theta, vega, c_rho, p_rho)

end BlackScholes

/-! Basic facts about the standard normal density and distribution. -/

lemma normPdf_pos (x : ℝ) : 0 < normPdf x := by
  unfold normPdf
  positivity

lemma normPdf_nonneg (x : ℝ) : 0 ≤ normPdf x := (normPdf_pos x).le

lemma normPdf_neg (x : ℝ) : normPdf (-x) = normPdf x := by
  unfold normPdf
  ring_nf

lemma integrable_normPdf : Integrable normPdf := by
  have h : Integrable (fun x : ℝ => Real.exp (-(1 / 2 : ℝ) * x ^ 2)) :=
    integrable_exp_neg_mul_sq (by norm_num)
  have h2 := h.const_mul (Real.sqrt (2 * Real.pi))⁻¹
  refine h2.congr ?_
  filter_upwards with x
  unfold normPdf
  ring_nf

lemma integral_normPdf : ∫ x, normPdf x = 1 := by
  have key : ∫ x : ℝ, Real.exp (-(1 / 2 : ℝ) * x ^ 2) = Real.sqrt (2 * Real.pi) := by
    rw [integral_gaussian]
    norm_num [mul_comm]
  have h : ∫ x, normPdf x =
      (Real.sqrt (2 * Real.pi))⁻¹ * ∫ x : ℝ, Real.exp (-(1 / 2 : ℝ) * x ^ 2) := by
    rw [← integral_mul_left]
    refine integral_congr_ae ?_
    filter_upwards with x
    unfold normPdf
    ring_nf
  rw [h, key, inv_mul_cancel₀]
  positivity

lemma normPdf_sub (s z : ℝ) :
    normPdf (z - s) = Real.exp (s * z - s ^ 2 / 2) * normPdf z := by
  unfold normPdf
  rw [mul_comm (Real.exp (s * z - s ^ 2 / 2)), mul_assoc, ← Real.exp_add]
  ring_nf

lemma normCdf_nonneg (x : ℝ) : 0 ≤ normCdf x :=
  setIntegral_nonneg measurableSet_Iio fun t _ => normPdf_nonneg t

lemma normCdf_neg_eq_integral_Ioi (x : ℝ) :
    normCdf (-x) = ∫ t in Set.Ioi x, normPdf t := by
  unfold normCdf
  rw [← integral_indicator measurableSet_Iio, ← integral_indicator measurableSet_Ioi,
    ← integral_neg_eq_self ((Set.Iio (-x)).indicator normPdf) volume]
  refine integral_congr_ae (Filter.Eventually.of_forall fun t => ?_)
  simp only [Set.indicator_apply, Set.mem_Iio, Set.mem_Ioi, neg_lt_neg_iff, normPdf_neg]

lemma normCdf_add_integral_Ioi (x : ℝ) :
    normCdf x + ∫ t in Set.Ioi x, normPdf t = 1 := by
  have h := integral_add_compl measurableSet_Iio integrable_normPdf (f := normPdf) (s := Set.Iio x)
  rw [compl_Iio, integral_Ici_eq_integral_Ioi, integral_normPdf] at h
  exact h

lemma normCdf_add_normCdf_neg (x : ℝ) : normCdf x + normCdf (-x) = 1 := by
  rw [normCdf_neg_eq_integral_Ioi]
  exact normCdf_add_integral_Ioi x

lemma integral_Ici_normPdf (x : ℝ) : ∫ t in Set.Ici x, normPdf t = 1 - normCdf x := by
  rw [integral_Ici_eq_integral_Ioi, eq_sub_iff_add_eq, add_comm]
  exact normCdf_add_integral_Ioi x

lemma normCdf_pos (x : ℝ) : 0 < normCdf x := by
  have hmono : ∫ t in Set.Ioo (x - 1) x, normPdf t ≤ normCdf x := by
    refine setIntegral_mono_set integrable_normPdf.integrableOn ?_ ?_
    · filter_upwards with t using normPdf_nonneg t
    · exact HasSubset.Subset.eventuallyLE Set.Ioo_subset_Iio_self
  have hpos : 0 < ∫ t in Set.Ioo (x - 1) x, normPdf t := by
    rw [← integral_Ioc_eq_integral_Ioo, ← intervalIntegral.integral_of_le (by linarith)]
    exact intervalIntegral.intervalIntegral_pos_of_pos_on
      integrable_normPdf.intervalIntegrable (fun t _ => normPdf_pos t) (by linarith)
  linarith

lemma normCdf_lt_one (x : ℝ) : normCdf x < 1 := by
  have h := normCdf_add_normCdf_neg x
  have := normCdf_pos (-x)
  linarith

lemma normCdf_le_one (x : ℝ) : normCdf x ≤ 1 := (normCdf_lt_one x).le

lemma setIntegral_Ici_comp_sub (f : ℝ → ℝ) (a s : ℝ) :
    ∫ z in Set.Ici a, f (z - s) = ∫ u in Set.Ici (a - s), f u := by
  rw [← integral_indicator measurableSet_Ici, ← integral_indicator measurableSet_Ici]
  have h : ∀ z, (Set.Ici a).indicator (fun y => f (y - s)) z =
      (Set.Ici (a - s)).indicator f (z - s) := by
    intro z
    simp only [Set.indicator_apply, Set.mem_Ici, sub_le_sub_iff_right]
  calc ∫ z, (Set.Ici a).indicator (fun y => f (y - s)) z
      = ∫ z, (Set.Ici (a - s)).indicator f (z - s) :=
        integral_congr_ae (Filter.Eventually.of_forall h)
    _ = ∫ u, (Set.Ici (a - s)).indicator f u :=
        integral_sub_right_eq_self ((Set.Ici (a - s)).indicator f) s

/-! Integral representation of the Black-Scholes price: the discounted
expected payoff of the option under the log-normal terminal distribution. -/

lemma bs_region (A B s z : ℝ) (hA : 0 < A) (hB : 0 < B) (hs : 0 < s) :
    0 ≤ A * Real.exp (s * z - s ^ 2 / 2) - B ↔
      (s ^ 2 / 2 - Real.log (A / B)) / s ≤ z := by
  have hAe : 0 < A * Real.exp (s * z - s ^ 2 / 2) := by positivity
  rw [sub_nonneg, ← Real.log_le_log_iff hB hAe, Real.log_mul hA.ne' (Real.exp_ne_zero _),
    Real.log_exp, Real.log_div hA.ne' hB.ne', div_le_iff₀ hs]
  constructor <;> intro h <;> linarith

lemma callIntegrand_eq_indicator (A B s : ℝ) (hA : 0 < A) (hB : 0 < B) (hs : 0 < s) :
    (fun z => max (A * Real.exp (s * z - s ^ 2 / 2) - B) 0 * normPdf z) =
      (Set.Ici ((s ^ 2 / 2 - Real.log (A / B)) / s)).indicator
        (fun z => A * normPdf (z - s) - B * normPdf z) := by
  funext z
  rw [Set.indicator_apply]
  split_ifs with hz
  · rw [Set.mem_Ici] at hz
    rw [max_eq_left ((bs_region A B s z hA hB hs).mpr hz), normPdf_sub]
    ring
  · rw [Set.mem_Ici] at hz
    have hneg : A * Real.exp (s * z - s ^ 2 / 2) - B ≤ 0 := by
      by_contra hc
      exact hz ((bs_region A B s z hA hB hs).mp (le_of_not_le fun h => hc (by linarith)))
    rw [max_eq_right hneg, zero_mul]

lemma integrable_inner_integrand (A B s : ℝ) :
    Integrable (fun z => A * normPdf (z - s) - B * normPdf z) :=
  ((integrable_normPdf.comp_sub_right s).const_mul A).sub (integrable_normPdf.const_mul B)

lemma integrable_callIntegrand (A B s : ℝ) (hA : 0 < A) (hB : 0 < B) (hs : 0 < s) :
    Integrable (fun z => max (A * Real.exp (s * z - s ^ 2 / 2) - B) 0 * normPdf z) := by
  rw [callIntegrand_eq_indicator A B s hA hB hs]
  exact (integrable_inner_integrand A B s).indicator measurableSet_Ici

lemma call_core_repr (A B s : ℝ) (hA : 0 < A) (hB : 0 < B) (hs : 0 < s) :
    A * normCdf ((Real.log (A / B) + s ^ 2 / 2) / s) -
      B * normCdf ((Real.log (A / B) - s ^ 2 / 2) / s) =
      ∫ z, max (A * Real.exp (s * z - s ^ 2 / 2) - B) 0 * normPdf z := by
  rw [callIntegrand_eq_indicator A B s hA hB hs, integral_indicator measurableSet_Ici]
  set c := (s ^ 2 / 2 - Real.log (A / B)) / s with hc
  have hsub : ∫ z in Set.Ici c, (A * normPdf (z - s) - B * normPdf z) =
      (∫ z in Set.Ici c, A * normPdf (z - s)) - ∫ z in Set.Ici c, B * normPdf z :=
    integral_sub ((integrable_normPdf.comp_sub_right s).const_mul A).integrableOn
      (integrable_normPdf.const_mul B).integrableOn
  have h1 : ∫ z in Set.Ici c, A * normPdf (z - s) = A * (1 - normCdf (c - s)) := by
    rw [integral_mul_left, setIntegral_Ici_comp_sub normPdf c s, integral_Ici_normPdf]
  have h2 : ∫ z in Set.Ici c, B * normPdf z = B * (1 - normCdf c) := by
    rw [integral_mul_left, integral_Ici_normPdf]
  have e1 : 1 - normCdf (c - s) = normCdf (s - c) := by
    have h := normCdf_add_normCdf_neg (c - s)
    rw [neg_sub] at h
    linarith
  have e2 : 1 - normCdf c = normCdf (-c) := by
    have h := normCdf_add_normCdf_neg c
    linarith
  have hd1 : (Real.log (A / B) + s ^ 2 / 2) / s = s - c := by
    rw [hc]; field_simp; ring
  have hd2 : (Real.log (A / B) - s ^ 2 / 2) / s = -c := by
    rw [hc]; field_simp; ring
  rw [hd1, hd2, hsub, h1, h2, e1, e2]

lemma integral_expShift_mul_normPdf (A B s : ℝ) :
    ∫ z, (A * Real.exp (s * z - s ^ 2 / 2) - B) * normPdf z = A - B := by
  have hcong : (fun z => (A * Real.exp (s * z - s ^ 2 / 2) - B) * normPdf z) =
      fun z => A * normPdf (z - s) - B * normPdf z := by
    funext z
    rw [normPdf_sub]
    ring
  rw [hcong, integral_sub ((integrable_normPdf.comp_sub_right s).const_mul A)
    (integrable_normPdf.const_mul B), integral_mul_left, integral_mul_left,
    integral_sub_right_eq_self normPdf s, integral_normPdf]
  ring

lemma put_core_repr (A B s : ℝ) (hA : 0 < A) (hB : 0 < B) (hs : 0 < s) :
    B * normCdf (-((Real.log (A / B) - s ^ 2 / 2) / s)) -
      A * normCdf (-((Real.log (A / B) + s ^ 2 / 2) / s)) =
      ∫ z, max (B - A * Real.exp (s * z - s ^ 2 / 2)) 0 * normPdf z := by
  have hparity : B * normCdf (-((Real.log (A / B) - s ^ 2 / 2) / s)) -
      A * normCdf (-((Real.log (A / B) + s ^ 2 / 2) / s)) =
      (A * normCdf ((Real.log (A / B) + s ^ 2 / 2) / s) -
        B * normCdf ((Real.log (A / B) - s ^ 2 / 2) / s)) - (A - B) := by
    have h1 := normCdf_add_normCdf_neg ((Real.log (A / B) + s ^ 2 / 2) / s)
    have e1 : normCdf (-((Real.log (A / B) + s ^ 2 / 2) / s)) =
        1 - normCdf ((Real.log (A / B) + s ^ 2 / 2) / s) := by linarith
    have h2 := normCdf_add_normCdf_neg ((Real.log (A / B) - s ^ 2 / 2) / s)
    have e2 : normCdf (-((Real.log (A / B) - s ^ 2 / 2) / s)) =
        1 - normCdf ((Real.log (A / B) - s ^ 2 / 2) / s) := by linarith
    rw [e1, e2]
    ring
  rw [hparity, call_core_repr A B s hA hB hs,
    ← integral_expShift_mul_normPdf A B s,
    ← integral_sub (integrable_callIntegrand A B s hA hB hs) ?_]
  · refine integral_congr_ae (Filter.Eventually.of_forall fun z => ?_)
    show max (A * Real.exp (s * z - s ^ 2 / 2) - B) 0 * normPdf z -
        (A * Real.exp (s * z - s ^ 2 / 2) - B) * normPdf z =
      max (B - A * Real.exp (s * z - s ^ 2 / 2)) 0 * normPdf z
    rw [← sub_mul]
    have hmax : max (A * Real.exp (s * z - s ^ 2 / 2) - B) 0 -
        (A * Real.exp (s * z - s ^ 2 / 2) - B) =
        max (B - A * Real.exp (s * z - s ^ 2 / 2)) 0 := by
      rcases le_total (A * Real.exp (s * z - s ^ 2 / 2) - B) 0 with h | h
      · rw [max_eq_right h, max_eq_left (by linarith)]
        ring
      · rw [max_eq_left h, max_eq_right (by linarith)]
        ring
    rw [hmax]
  · have hcong : (fun z => (A * Real.exp (s * z - s ^ 2 / 2) - B) * normPdf z) =
        fun z => A * normPdf (z - s) - B * normPdf z := by
      funext z
      rw [normPdf_sub]
      ring
    rw [hcong]
    exact integrable_inner_integrand A B s

lemma integrable_putIntegrand (A B s : ℝ) (hA : 0 < A) (hB : 0 < B) (hs : 0 < s) :
    Integrable (fun z => max (B - A * Real.exp (s * z - s ^ 2 / 2)) 0 * normPdf z) := by
  have hcong : (fun z => max (B - A * Real.exp (s * z - s ^ 2 / 2)) 0 * normPdf z) =
      fun z => max (A * Real.exp (s * z - s ^ 2 / 2) - B) 0 * normPdf z -
        (A * Real.exp (s * z - s ^ 2 / 2) - B) * normPdf z := by
    funext z
    rcases le_total (A * Real.exp (s * z - s ^ 2 / 2) - B) 0 with h | h
    · rw [max_eq_left (by linarith), max_eq_right h]
      ring
    · rw [max_eq_right (by linarith), max_eq_left h]
      ring
  rw [hcong]
  refine (integrable_callIntegrand A B s hA hB hs).sub ?_
  have hcong2 : (fun z => (A * Real.exp (s * z - s ^ 2 / 2) - B) * normPdf z) =
      fun z => A * normPdf (z - s) - B * normPdf z := by
    funext z
    rw [normPdf_sub]
    ring
  rw [hcong2]
  exact integrable_inner_integrand A B s

/-! Bridge lemmas: the quantities computed by the code, rewritten in terms of
the forward price ratio used by the integral representation. -/

lemma d1_core (T K S σ r : ℝ) (hS : 0 < S) (hK : 0 < K) (hT : 0 < T) (hσ : 0 < σ) :
    (BlackScholes.init T K S σ r).calculate_d1_d2.1 =
      (Real.log (S / (K * Real.exp (-r * T))) + (σ * Real.sqrt T) ^ 2 / 2) /
        (σ * Real.sqrt T) := by
  have hsqT : Real.sqrt T ^ 2 = T := Real.sq_sqrt hT.le
  have hlog : Real.log (S / (K * Real.exp (-r * T))) = Real.log (S / K) + r * T := by
    rw [Real.log_div hS.ne' (by positivity), Real.log_mul hK.ne' (Real.exp_ne_zero _),
      Real.log_exp, Real.log_div hS.ne' hK.ne']
    ring
  show (Real.log (S / K) + (r + 0.5 * σ ^ 2) * T) / (σ * Real.sqrt T) = _
  rw [hlog, mul_pow, hsqT]
  congr 1
  ring

lemma d2_core (T K S σ r : ℝ) (hS : 0 < S) (hK : 0 < K) (hT : 0 < T) (hσ : 0 < σ) :
    (BlackScholes.init T K S σ r).calculate_d1_d2.2 =
      (Real.log (S / (K * Real.exp (-r * T))) - (σ * Real.sqrt T) ^ 2 / 2) /
        (σ * Real.sqrt T) := by
  have hs : (0:ℝ) < σ * Real.sqrt T := by positivity
  have h1 : (BlackScholes.init T K S σ r).calculate_d1_d2.2 =
      (BlackScholes.init T K S σ r).calculate_d1_d2.1 - σ * Real.sqrt T := rfl
  rw [h1, d1_core T K S σ r hS hK hT hσ]
  field_simp
  ring

lemma call_eq_core (T K S σ r : ℝ) (hS : 0 < S) (hK : 0 < K) (hT : 0 < T) (hσ : 0 < σ) :
    (BlackScholes.init T K S σ r).calculate_prices.1 =
      S * normCdf ((Real.log (S / (K * Real.exp (-r * T))) +
          (σ * Real.sqrt T) ^ 2 / 2) / (σ * Real.sqrt T)) -
      K * Real.exp (-r * T) * normCdf ((Real.log (S / (K * Real.exp (-r * T))) -
          (σ * Real.sqrt T) ^ 2 / 2) / (σ * Real.sqrt T)) := by
  have h : (BlackScholes.init T K S σ r).calculate_prices.1 =
      S * normCdf (BlackScholes.init T K S σ r).calculate_d1_d2.1 -
      K * Real.exp (-r * T) *
        normCdf (BlackScholes.init T K S σ r).calculate_d1_d2.2 := rfl
  rw [h, d1_core T K S σ r hS hK hT hσ, d2_core T K S σ r hS hK hT hσ]

lemma put_eq_core (T K S σ r : ℝ) (hS : 0 < S) (hK : 0 < K) (hT : 0 < T) (hσ : 0 < σ) :
    (BlackScholes.init T K S σ r).calculate_prices.2 =
      K * Real.exp (-r * T) * normCdf (-((Real.log (S / (K * Real.exp (-r * T))) -
          (σ * Real.sqrt T) ^ 2 / 2) / (σ * Real.sqrt T))) -
      S * normCdf (-((Real.log (S / (K * Real.exp (-r * T))) +
          (σ * Real.sqrt T) ^ 2 / 2) / (σ * Real.sqrt T))) := by
  have h : (BlackScholes.init T K S σ r).calculate_prices.2 =
      K * Real.exp (-r * T) *
        normCdf (-(BlackScholes.init T K S σ r).calculate_d1_d2.2) -
      S * normCdf (-(BlackScholes.init T K S σ r).calculate_d1_d2.1) := rfl
  rw [h, d1_core T K S σ r hS hK hT hσ, d2_core T K S σ r hS hK hT hσ]

lemma call_price_repr (T K S σ r : ℝ) (hS : 0 < S) (hK : 0 < K) (hT : 0 < T) (hσ : 0 < σ) :
    (BlackScholes.init T K S σ r).calculate_prices.1 =
      ∫ z, max (S * Real.exp (σ * Real.sqrt T * z - (σ * Real.sqrt T) ^ 2 / 2) -
        K * Real.exp (-r * T)) 0 * normPdf z := by
  rw [call_eq_core T K S σ r hS hK hT hσ]
  exact call_core_repr S (K * Real.exp (-r * T)) (σ * Real.sqrt T) hS (by positivity)
    (by positivity)

lemma put_price_repr (T K S σ r : ℝ) (hS : 0 < S) (hK : 0 < K) (hT : 0 < T) (hσ : 0 < σ) :
    (BlackScholes.init T K S σ r).calculate_prices.2 =
      ∫ z, max (K * Real.exp (-r * T) -
        S * Real.exp (σ * Real.sqrt T * z - (σ * Real.sqrt T) ^ 2 / 2)) 0 * normPdf z := by
  rw [put_eq_core T K S σ r hS hK hT hσ]
  exact put_core_repr S (K * Real.exp (-r * T)) (σ * Real.sqrt T) hS (by positivity)
    (by positivity)

/-! Claim theorems. -/

/-- C1: the claim says constructing the engine with `strike <= 0`, `spot <= 0`,
`timeToMaturity <= 0` or `volatility <= 0` fails with `InvalidParameterError`.
The code has no validation at all: `__init__` only stores the five parameters,
so construction with `volatility = 0` succeeds and the divisor
`volatility * sqrt(timeToMaturity)` used by `calculate_d1_d2` is exactly `0`,
which in IEEE arithmetic produces a non-finite `d1` that reaches the caller. -/
theorem initStoresParametersUnvalidated :
    BlackScholes.init 1 100 100 0 0.05 =
      { time_to_maturity := 1, strike := 100, current_price := 100,
        volatility := 0, interest_rate := 0.05 } ∧
    (BlackScholes.init 1 100 100 0 0.05).volatility *
      Real.sqrt (BlackScholes.init 1 100 100 0 0.05).time_to_maturity = 0 := by
  refine ⟨rfl, ?_⟩
  show (0 : ℝ) * Real.sqrt 1 = 0
  rw [zero_mul]

/-- C2: put-call parity. For every valid input the pair returned by
`calculate_prices` satisfies
`callPrice - putPrice = spot - strike * exp (-riskFreeRate * timeToMaturity)`,
exactly in real arithmetic (hence within any floating tolerance). -/
theorem putCallParity_calculate_prices (T K S σ r : ℝ)
    (hS : 0 < S) (hK : 0 < K) (hT : 0 < T) (hσ : 0 < σ) :
    (BlackScholes.init T K S σ r).calculate_prices.1 -
      (BlackScholes.init T K S σ r).calculate_prices.2 =
      S - K * Real.exp (-r * T) := by
  have hcall : (BlackScholes.init T K S σ r).calculate_prices.1 =
      S * normCdf (BlackScholes.init T K S σ r).calculate_d1_d2.1 -
      K * Real.exp (-r * T) *
        normCdf (BlackScholes.init T K S σ r).calculate_d1_d2.2 := rfl
  have hput : (BlackScholes.init T K S σ r).calculate_prices.2 =
      K * Real.exp (-r * T) *
        normCdf (-(BlackScholes.init T K S σ r).calculate_d1_d2.2) -
      S * normCdf (-(BlackScholes.init T K S σ r).calculate_d1_d2.1) := rfl
  have h1 := normCdf_add_normCdf_neg (BlackScholes.init T K S σ r).calculate_d1_d2.1
  have h2 := normCdf_add_normCdf_neg (BlackScholes.init T K S σ r).calculate_d1_d2.2
  have e1 : normCdf (-(BlackScholes.init T K S σ r).calculate_d1_d2.1) =
      1 - normCdf (BlackScholes.init T K S σ r).calculate_d1_d2.1 := by linarith
  have e2 : normCdf (-(BlackScholes.init T K S σ r).calculate_d1_d2.2) =
      1 - normCdf (BlackScholes.init T K S σ r).calculate_d1_d2.2 := by linarith
  rw [hcall, hput, e1, e2]
  ring

/-- Witness for C2 at spot 1, strike 1, maturity 1, volatility 1, rate 0. -/
theorem putCallParity_calculate_prices_witness :
    (BlackScholes.init 1 1 1 1 0).calculate_prices.1 -
      (BlackScholes.init 1 1 1 1 0).calculate_prices.2 =
      1 - 1 * Real.exp (-0 * 1) :=
  putCallParity_calculate_prices 1 1 1 1 0 (by norm_num) (by norm_num) (by norm_num)
    (by norm_num)

/-- C3: for every valid input, `calculate_d1_d2` returns the documented pair:
`d1 = (ln (spot / strike) + (riskFreeRate + 0.5 * volatility ^ 2) *
timeToMaturity) / (volatility * sqrt timeToMaturity)` and
`d2 = d1 - volatility * sqrt timeToMaturity`.  It is a pure function of the
five stored inputs (the embedding is a function of exactly those fields). -/
theorem calculate_d1_d2_formula (T K S σ r : ℝ)
    (hS : 0 < S) (hK : 0 < K) (hT : 0 < T) (hσ : 0 < σ) :
    (BlackScholes.init T K S σ r).calculate_d1_d2.1 =
      (Real.log (S / K) + (r + 0.5 * σ ^ 2) * T) / (σ * Real.sqrt T) ∧
    (BlackScholes.init T K S σ r).calculate_d1_d2.2 =
      (BlackScholes.init T K S σ r).calculate_d1_d2.1 - σ * Real.sqrt T :=
  ⟨rfl, rfl⟩

/-- Witness for C3 at spot 1, strike 1, maturity 1, volatility 1, rate 0. -/
theorem calculate_d1_d2_formula_witness :
    (BlackScholes.init 1 1 1 1 0).calculate_d1_d2.1 =
      (Real.log (1 / 1) + (0 + 0.5 * 1 ^ 2) * 1) / (1 * Real.sqrt 1) ∧
    (BlackScholes.init 1 1 1 1 0).calculate_d1_d2.2 =
      (BlackScholes.init 1 1 1 1 0).calculate_d1_d2.1 - 1 * Real.sqrt 1 :=
  calculate_d1_d2_formula 1 1 1 1 0 (by norm_num) (by norm_num) (by norm_num)
    (by norm_num)

/-- C4: for every valid input, `calculate_prices` returns
`callPrice = spot * Φ d1 - strike * exp (-riskFreeRate * timeToMaturity) * Φ d2`
and `putPrice = strike * exp (-riskFreeRate * timeToMaturity) * Φ (-d2) -
spot * Φ (-d1)`, with `(d1, d2)` the pair computed by `calculate_d1_d2`. -/
theorem calculate_prices_formula (T K S σ r : ℝ)
    (hS : 0 < S) (hK : 0 < K) (hT : 0 < T) (hσ : 0 < σ) :
    (BlackScholes.init T K S σ r).calculate_prices.1 =
      S * normCdf (BlackScholes.init T K S σ r).calculate_d1_d2.1 -
      K * Real.exp (-r * T) *
        normCdf (BlackScholes.init T K S σ r).calculate_d1_d2.2 ∧
    (BlackScholes.init T K S σ r).calculate_prices.2 =
      K * Real.exp (-r * T) *
        normCdf (-(BlackScholes.init T K S σ r).calculate_d1_d2.2) -
      S * normCdf (-(BlackScholes.init T K S σ r).calculate_d1_d2.1) :=
  ⟨rfl, rfl⟩

/-- Witness for C4 at spot 1, strike 1, maturity 1, volatility 1, rate 0. -/
theorem calculate_prices_formula_witness :
    (BlackScholes.init 1 1 1 1 0).calculate_prices.1 =
      1 * normCdf (BlackScholes.init 1 1 1 1 0).calculate_d1_d2.1 -
      1 * Real.exp (-0 * 1) *
        normCdf (BlackScholes.init 1 1 1 1 0).calculate_d1_d2.2 ∧
    (BlackScholes.init 1 1 1 1 0).calculate_prices.2 =
      1 * Real.exp (-0 * 1) *
        normCdf (-(BlackScholes.init 1 1 1 1 0).calculate_d1_d2.2) -
      1 * normCdf (-(BlackScholes.init 1 1 1 1 0).calculate_d1_d2.1) :=
  calculate_prices_formula 1 1 1 1 0 (by norm_num) (by norm_num) (by norm_num)
    (by norm_num)

/-- C5: for every valid input, `calculate_greeks` returns
`callDelta = Φ d1` and `putDelta = Φ d1 - 1`, with `callDelta` strictly
between 0 and 1, `putDelta` strictly between -1 and 0, and
`callDelta - putDelta = 1` exactly in real arithmetic. -/
theorem delta_formulas_and_bounds (T K S σ r : ℝ)
    (hS : 0 < S) (hK : 0 < K) (hT : 0 < T) (hσ : 0 < σ) :
    (BlackScholes.init T K S σ r).calculate_greeks.1 =
      normCdf (BlackScholes.init T K S σ r).calculate_d1_d2.1 ∧
    (BlackScholes.init T K S σ r).calculate_greeks.2.1 =
      normCdf (BlackScholes.init T K S σ r).calculate_d1_d2.1 - 1 ∧
    0 < (BlackScholes.init T K S σ r).calculate_greeks.1 ∧
    (BlackScholes.init T K S σ r).calculate_greeks.1 < 1 ∧
    -1 < (BlackScholes.init T K S σ r).calculate_greeks.2.1 ∧
    (BlackScholes.init T K S σ r).calculate_greeks.2.1 < 0 ∧
    (BlackScholes.init T K S σ r).calculate_greeks.1 -
      (BlackScholes.init T K S σ r).calculate_greeks.2.1 = 1 := by
  have h1 : (BlackScholes.init T K S σ r).calculate_greeks.1 =
      normCdf (BlackScholes.init T K S σ r).calculate_d1_d2.1 := rfl
  have h2 : (BlackScholes.init T K S σ r).calculate_greeks.2.1 =
      normCdf (BlackScholes.init T K S σ r).calculate_d1_d2.1 - 1 := rfl
  have hp := normCdf_pos (BlackScholes.init T K S σ r).calculate_d1_d2.1
  have hl := normCdf_lt_one (BlackScholes.init T K S σ r).calculate_d1_d2.1
  exact ⟨h1, h2, by rw [h1]; exact hp, by rw [h1]; exact hl, by rw [h2]; linarith,
    by rw [h2]; linarith, by rw [h1, h2]; ring⟩

/-- Witness for C5 at spot 1, strike 1, maturity 1, volatility 1, rate 0. -/
theorem delta_formulas_and_bounds_witness :
    (BlackScholes.init 1 1 1 1 0).calculate_greeks.1 =
      normCdf (BlackScholes.init 1 1 1 1 0).calculate_d1_d2.1 ∧
    (BlackScholes.init 1 1 1 1 0).calculate_greeks.2.1 =
      normCdf (BlackScholes.init 1 1 1 1 0).calculate_d1_d2.1 - 1 ∧
    0 < (BlackScholes.init 1 1 1 1 0).calculate_greeks.1 ∧
    (BlackScholes.init 1 1 1 1 0).calculate_greeks.1 < 1 ∧
    -1 < (BlackScholes.init 1 1 1 1 0).calculate_greeks.2.1 ∧
    (BlackScholes.init 1 1 1 1 0).calculate_greeks.2.1 < 0 ∧
    (BlackScholes.init 1 1 1 1 0).calculate_greeks.1 -
      (BlackScholes.init 1 1 1 1 0).calculate_greeks.2.1 = 1 :=
  delta_formulas_and_bounds 1 1 1 1 0 (by norm_num) (by norm_num) (by norm_num)
    (by norm_num)

/-- C6: for every valid input the two prices returned by `calculate_prices`
are nonnegative (no clamping is applied anywhere in the code), and the gamma
and vega returned by `calculate_greeks` are nonnegative. -/
theorem prices_gamma_vega_nonneg (T K S σ r : ℝ)
    (hS : 0 < S) (hK : 0 < K) (hT : 0 < T) (hσ : 0 < σ) :
    0 ≤ (BlackScholes.init T K S σ r).calculate_prices.1 ∧
    0 ≤ (BlackScholes.init T K S σ r).calculate_prices.2 ∧
    0 ≤ (BlackScholes.init T K S σ r).calculate_greeks.2.2.1 ∧
    0 ≤ (BlackScholes.init T K S σ r).calculate_greeks.2.2.2.2.2.1 := by
  refine ⟨?_, ?_, ?_, ?_⟩
  · rw [call_price_repr T K S σ r hS hK hT hσ]
    exact integral_nonneg fun z => mul_nonneg (le_max_right _ 0) (normPdf_nonneg z)
  · rw [put_price_repr T K S σ r hS hK hT hσ]
    exact integral_nonneg fun z => mul_nonneg (le_max_right _ 0) (normPdf_nonneg z)
  · show 0 ≤ normPdf (BlackScholes.init T K S σ r).calculate_d1_d2.1 /
      (S * σ * Real.sqrt T)
    exact div_nonneg (normPdf_nonneg _) (by positivity)
  · show 0 ≤ S * Real.sqrt T * normPdf (BlackScholes.init T K S σ r).calculate_d1_d2.1 / 100
    exact div_nonneg (mul_nonneg (mul_nonneg hS.le (Real.sqrt_nonneg T))
      (normPdf_nonneg _)) (by norm_num)

/-- Witness for C6 at spot 1, strike 1, maturity 1, volatility 1, rate 0. -/
theorem prices_gamma_vega_nonneg_witness :
    0 ≤ (BlackScholes.init 1 1 1 1 0).calculate_prices.1 ∧
    0 ≤ (BlackScholes.init 1 1 1 1 0).calculate_prices.2 ∧
    0 ≤ (BlackScholes.init 1 1 1 1 0).calculate_greeks.2.2.1 ∧
    0 ≤ (BlackScholes.init 1 1 1 1 0).calculate_greeks.2.2.2.2.2.1 :=
  prices_gamma_vega_nonneg 1 1 1 1 0 (by norm_num) (by norm_num) (by norm_num)
    (by norm_num)

/-- C7: for every valid input, `calculate_greeks` returns the documented
call/put theta and rho:
`callTheta = -(spot * volatility * φ d1) / (2 * sqrt timeToMaturity) -
riskFreeRate * strike * exp (-riskFreeRate * timeToMaturity) * Φ d2`,
`putTheta` the same with `+` and `Φ (-d2)`,
`callRho = strike * timeToMaturity * exp (-riskFreeRate * timeToMaturity) * Φ d2`,
`putRho = -strike * timeToMaturity * exp (-riskFreeRate * timeToMaturity) * Φ (-d2)`. -/
theorem theta_rho_formulas (T K S σ r : ℝ)
    (hS : 0 < S) (hK : 0 < K) (hT : 0 < T) (hσ : 0 < σ) :
    (BlackScholes.init T K S σ r).calculate_greeks.2.2.2.1 =
      -(S * σ * normPdf (BlackScholes.init T K S σ r).calculate_d1_d2.1) /
        (2 * Real.sqrt T) -
      r * K * Real.exp (-r * T) *
        normCdf (BlackScholes.init T K S σ r).calculate_d1_d2.2 ∧
    (BlackScholes.init T K S σ r).calculate_greeks.2.2.2.2.1 =
      -(S * σ * normPdf (BlackScholes.init T K S σ r).calculate_d1_d2.1) /
        (2 * Real.sqrt T) +
      r * K * Real.exp (-r * T) *
        normCdf (-(BlackScholes.init T K S σ r).calculate_d1_d2.2) ∧
    (BlackScholes.init T K S σ r).calculate_greeks.2.2.2.2.2.2.1 =
      K * T * Real.exp (-r * T) *
        normCdf (BlackScholes.init T K S σ r).calculate_d1_d2.2 ∧
    (BlackScholes.init T K S σ r).calculate_greeks.2.2.2.2.2.2.2 =
      -K * T * Real.exp (-r * T) *
        normCdf (-(BlackScholes.init T K S σ r).calculate_d1_d2.2) :=
  ⟨rfl, rfl, rfl, rfl⟩

/-- Witness for C7 at spot 1, strike 1, maturity 1, volatility 1, rate 0. -/
theorem theta_rho_formulas_witness :
    (BlackScholes.init 1 1 1 1 0).calculate_greeks.2.2.2.1 =
      -(1 * 1 * normPdf (BlackScholes.init 1 1 1 1 0).calculate_d1_d2.1) /
        (2 * Real.sqrt 1) -
      0 * 1 * Real.exp (-0 * 1) *
        normCdf (BlackScholes.init 1 1 1 1 0).calculate_d1_d2.2 ∧
    (BlackScholes.init 1 1 1 1 0).calculate_greeks.2.2.2.2.1 =
      -(1 * 1 * normPdf (BlackScholes.init 1 1 1 1 0).calculate_d1_d2.1) /
        (2 * Real.sqrt 1) +
      0 * 1 * Real.exp (-0 * 1) *
        normCdf (-(BlackScholes.init 1 1 1 1 0).calculate_d1_d2.2) ∧
    (BlackScholes.init 1 1 1 1 0).calculate_greeks.2.2.2.2.2.2.1 =
      1 * 1 * Real.exp (-0 * 1) *
        normCdf (BlackScholes.init 1 1 1 1 0).calculate_d1_d2.2 ∧
    (BlackScholes.init 1 1 1 1 0).calculate_greeks.2.2.2.2.2.2.2 =
      -1 * 1 * Real.exp (-0 * 1) *
        normCdf (-(BlackScholes.init 1 1 1 1 0).calculate_d1_d2.2) :=
  theta_rho_formulas 1 1 1 1 0 (by norm_num) (by norm_num) (by norm_num) (by norm_num)

/-- C8: monotonicity.  Holding the other parameters fixed, the call price is
non-decreasing and the put price non-increasing in spot, while the call price
is non-increasing and the put price non-decreasing in strike. -/
theorem price_monotonicity (T σ r S1 S2 K1 K2 : ℝ) (hT : 0 < T) (hσ : 0 < σ)
    (hS1 : 0 < S1) (hS2 : 0 < S2) (hK1 : 0 < K1) (hK2 : 0 < K2)
    (hS : S1 ≤ S2) (hK : K1 ≤ K2) :
    (BlackScholes.init T K1 S1 σ r).calculate_prices.1 ≤
      (BlackScholes.init T K1 S2 σ r).calculate_prices.1 ∧
    (BlackScholes.init T K1 S2 σ r).calculate_prices.2 ≤
      (BlackScholes.init T K1 S1 σ r).calculate_prices.2 ∧
    (BlackScholes.init T K2 S1 σ r).calculate_prices.1 ≤
      (BlackScholes.init T K1 S1 σ r).calculate_prices.1 ∧
    (BlackScholes.init T K1 S1 σ r).calculate_prices.2 ≤
      (BlackScholes.init T K2 S1 σ r).calculate_prices.2 := by
  have hs : (0:ℝ) < σ * Real.sqrt T := by positivity
  have hB1 : (0:ℝ) < K1 * Real.exp (-r * T) := by positivity
  have hB2 : (0:ℝ) < K2 * Real.exp (-r * T) := by positivity
  have hB : K1 * Real.exp (-r * T) ≤ K2 * Real.exp (-r * T) :=
    mul_le_mul_of_nonneg_right hK (Real.exp_pos _).le
  refine ⟨?_, ?_, ?_, ?_⟩
  · rw [call_price_repr T K1 S1 σ r hS1 hK1 hT hσ,
      call_price_repr T K1 S2 σ r hS2 hK1 hT hσ]
    refine integral_mono
      (integrable_callIntegrand S1 (K1 * Real.exp (-r * T)) (σ * Real.sqrt T) hS1 hB1 hs)
      (integrable_callIntegrand S2 (K1 * Real.exp (-r * T)) (σ * Real.sqrt T) hS2 hB1 hs)
      fun z => ?_
    refine mul_le_mul_of_nonneg_right (max_le_max ?_ le_rfl) (normPdf_nonneg z)
    exact sub_le_sub_right (mul_le_mul_of_nonneg_right hS (Real.exp_pos _).le) _
  · rw [put_price_repr T K1 S1 σ r hS1 hK1 hT hσ,
      put_price_repr T K1 S2 σ r hS2 hK1 hT hσ]
    refine integral_mono
      (integrable_putIntegrand S2 (K1 * Real.exp (-r * T)) (σ * Real.sqrt T) hS2 hB1 hs)
      (integrable_putIntegrand S1 (K1 * Real.exp (-r * T)) (σ * Real.sqrt T) hS1 hB1 hs)
      fun z => ?_
    refine mul_le_mul_of_nonneg_right (max_le_max ?_ le_rfl) (normPdf_nonneg z)
    exact sub_le_sub_left (mul_le_mul_of_nonneg_right hS (Real.exp_pos _).le) _
  · rw [call_price_repr T K1 S1 σ r hS1 hK1 hT hσ,
      call_price_repr T K2 S1 σ r hS1 hK2 hT hσ]
    refine integral_mono
      (integrable_callIntegrand S1 (K2 * Real.exp (-r * T)) (σ * Real.sqrt T) hS1 hB2 hs)
      (integrable_callIntegrand S1 (K1 * Real.exp (-r * T)) (σ * Real.sqrt T) hS1 hB1 hs)
      fun z => ?_
    refine mul_le_mul_of_nonneg_right (max_le_max ?_ le_rfl) (normPdf_nonneg z)
    exact sub_le_sub_left hB _
  · rw [put_price_repr T K1 S1 σ r hS1 hK1 hT hσ,
      put_price_repr T K2 S1 σ r hS1 hK2 hT hσ]
    refine integral_mono
      (integrable_putIntegrand S1 (K1 * Real.exp (-r * T)) (σ * Real.sqrt T) hS1 hB1 hs)
      (integrable_putIntegrand S1 (K2 * Real.exp (-r * T)) (σ * Real.sqrt T) hS1 hB2 hs)
      fun z => ?_
    refine mul_le_mul_of_nonneg_right (max_le_max ?_ le_rfl) (normPdf_nonneg z)
    exact sub_le_sub_right hB _

/-- Witness for C8 with spot pair 1 ≤ 2 and strike pair 1 ≤ 2 at maturity 1,
volatility 1, rate 0. -/
theorem price_monotonicity_witness :
    (BlackScholes.init 1 1 1 1 0).calculate_prices.1 ≤
      (BlackScholes.init 1 1 2 1 0).calculate_prices.1 ∧
    (BlackScholes.init 1 1 2 1 0).calculate_prices.2 ≤
      (BlackScholes.init 1 1 1 1 0).calculate_prices.2 ∧
    (BlackScholes.init 1 2 1 1 0).calculate_prices.1 ≤
      (BlackScholes.init 1 1 1 1 0).calculate_prices.1 ∧
    (BlackScholes.init 1 1 1 1 0).calculate_prices.2 ≤
      (BlackScholes.init 1 2 1 1 0).calculate_prices.2 :=
  price_monotonicity 1 1 0 1 2 1 2 (by norm_num) (by norm_num) (by norm_num)
    (by norm_num) (by norm_num) (by norm_num) (by norm_num) (by norm_num)

/-- C9: determinism.  The embedded operations are functions of the stored
state, and the state consists of exactly the five input fields, so any two
engine states agreeing on the five fields produce equal results for both
`calculate_prices` and `calculate_greeks`; repeated invocation on the same
state trivially yields identical results. -/
theorem outputs_determined_by_fields (p q : BlackScholes)
    (h1 : p.time_to_maturity = q.time_to_maturity) (h2 : p.strike = q.strike)
    (h3 : p.current_price = q.current_price) (h4 : p.volatility = q.volatility)
    (h5 : p.interest_rate = q.interest_rate) :
    p.calculate_prices = q.calculate_prices ∧
    p.calculate_greeks = q.calculate_greeks := by
  obtain ⟨a1, a2, a3, a4, a5⟩ := p
  obtain ⟨b1, b2, b3, b4, b5⟩ := q
  have e1 : a1 = b1 := h1
  have e2 : a2 = b2 := h2
  have e3 : a3 = b3 := h3
  have e4 : a4 = b4 := h4
  have e5 : a5 = b5 := h5
  subst e1; subst e2; subst e3; subst e4; subst e5
  exact ⟨rfl, rfl⟩

/-- Witness for C9: two constructions from the same five parameters give
identical price and greek tuples. -/
theorem outputs_determined_by_fields_witness :
    (BlackScholes.init 1 2 3 4 5).calculate_prices =
      (BlackScholes.init 1 2 3 4 5).calculate_prices ∧
    (BlackScholes.init 1 2 3 4 5).calculate_greeks =
      (BlackScholes.init 1 2 3 4 5).calculate_greeks :=
  outputs_determined_by_fields (BlackScholes.init 1 2 3 4 5)
    (BlackScholes.init 1 2 3 4 5) rfl rfl rfl rfl rfl

/-- C10: the rho pair returned by `calculate_greeks` satisfies
`callRho - putRho = strike * timeToMaturity * exp (-riskFreeRate *
timeToMaturity)` (because `Φ d2 + Φ (-d2) = 1`), hence `callRho ≥ 0` and
`putRho ≤ 0` for every valid input. -/
theorem rho_difference_and_signs (T K S σ r : ℝ)
    (hS : 0 < S) (hK : 0 < K) (hT : 0 < T) (hσ : 0 < σ) :
    (BlackScholes.init T K S σ r).calculate_greeks.2.2.2.2.2.2.1 -
      (BlackScholes.init T K S σ r).calculate_greeks.2.2.2.2.2.2.2 =
      K * T * Real.exp (-r * T) ∧
    0 ≤ (BlackScholes.init T K S σ r).calculate_greeks.2.2.2.2.2.2.1 ∧
    (BlackScholes.init T K S σ r).calculate_greeks.2.2.2.2.2.2.2 ≤ 0 := by
  have hc : (BlackScholes.init T K S σ r).calculate_greeks.2.2.2.2.2.2.1 =
      K * T * Real.exp (-r * T) *
        normCdf (BlackScholes.init T K S σ r).calculate_d1_d2.2 := rfl
  have hp : (BlackScholes.init T K S σ r).calculate_greeks.2.2.2.2.2.2.2 =
      -K * T * Real.exp (-r * T) *
        normCdf (-(BlackScholes.init T K S σ r).calculate_d1_d2.2) := rfl
  have h := normCdf_add_normCdf_neg (BlackScholes.init T K S σ r).calculate_d1_d2.2
  have hnn2 := normCdf_nonneg (-(BlackScholes.init T K S σ r).calculate_d1_d2.2)
  have hnn1 := normCdf_nonneg (BlackScholes.init T K S σ r).calculate_d1_d2.2
  refine ⟨?_, ?_, ?_⟩
  · rw [hc, hp]
    have e : normCdf (-(BlackScholes.init T K S σ r).calculate_d1_d2.2) =
        1 - normCdf (BlackScholes.init T K S σ r).calculate_d1_d2.2 := by linarith
    rw [e]
    ring
  · rw [hc]
    exact mul_nonneg (mul_nonneg (mul_nonneg hK.le hT.le) (Real.exp_pos _).le) hnn1
  · rw [hp]
    have hpos : 0 ≤ K * T * Real.exp (-r * T) *
        normCdf (-(BlackScholes.init T K S σ r).calculate_d1_d2.2) :=
      mul_nonneg (mul_nonneg (mul_nonneg hK.le hT.le) (Real.exp_pos _).le) hnn2
    nlinarith [hpos]

/-- Witness for C10 at spot 1, strike 1, maturity 1, volatility 1, rate 0. -/
theorem rho_difference_and_signs_witness :
    (BlackScholes.init 1 1 1 1 0).calculate_greeks.2.2.2.2.2.2.1 -
      (BlackScholes.init 1 1 1 1 0).calculate_greeks.2.2.2.2.2.2.2 =
      1 * 1 * Real.exp (-0 * 1) ∧
    0 ≤ (BlackScholes.init 1 1 1 1 0).calculate_greeks.2.2.2.2.2.2.1 ∧
    (BlackScholes.init 1 1 1 1 0).calculate_greeks.2.2.2.2.2.2.2 ≤ 0 :=
  rho_difference_and_signs 1 1 1 1 0 (by norm_num) (by norm_num) (by norm_num)
    (by norm_num)
